import Mathlib

/-!
# Route planner: search nodes and the map renderer

A shallow embedding of `route_model.h` (the search node and its `Distance`)
and of the drawing routines of `render.cpp` that deal with roads and with the
computed path.  The C++ `float` arithmetic is read over the real numbers, the
`size_t` loop bounds are natural numbers reduced modulo `2 ^ 64`, and the SFML
window is the sequence of shapes drawn into it so far.  Where rounding decides
a property, `Distance` is also given as the machine evaluates it
(`Distance_float`), every operation rounded to its IEEE 754 format.
-/

/-! ## The map model (`model.h`) -/

/-- Modelled from the spec: the declaration of `Model::Node` lives in `model.h`,
which is not among the sources.  The sources read exactly its two planar
coordinates (`x`, `other.x`, `node.y`, ...). -/
structure Model.Node where
  x : ℝ
  y : ℝ

/-- Modelled from the spec: `Model::Way` (`model.h`), an ordered sequence of
node references; `render.cpp` iterates it as `int` indices into `Nodes()`. -/
structure Model.Way where
  nodes : List Int

/-- Modelled from the spec: the road-class tag `Model::Road::Type` (`model.h`).
The nine enumerators are the ones `render.cpp` names; `Other` stands for any
further value of the enumeration, which the `switch` statements send to their
`default` branch. -/
inductive Model.RoadType where
  | Motorway
  | Trunk
  | Primary
  | Secondary
  | Tertiary
  | Residential
  | Service
  | Unclassified
  | Footway
  | Other (tag : Nat)
  deriving DecidableEq, Repr

/-- Modelled from the spec: `Model::Road` (`model.h`); `render.cpp` reads its
members `way` (an index into `Ways()`) and `type`. -/
structure Model.Road where
  way : Int
  type : Model.RoadType

/-- Modelled from the spec: the part of `Model` (`model.h`) that `render.cpp`
reads through `Nodes()`, `Ways()`, `Roads()` and `MetricScale()`. -/
structure Model where
  Nodes : List Model.Node
  Ways : List Model.Way
  Roads : List Model.Road
  MetricScale : ℝ

/-! ## IEEE 754 rounding -/

/-- The integer nearest to `x`, the even one of the two when `x` lies halfway
between two integers. -/
noncomputable def roundTiesEven (x : ℝ) : ℤ :=
  if x - ⌊x⌋ < 1 / 2 then ⌊x⌋
  else if 1 / 2 < x - ⌊x⌋ then ⌊x⌋ + 1
  else if ⌊x⌋ % 2 = 0 then ⌊x⌋ else ⌊x⌋ + 1

/-- Rounding to nearest, ties to even, in the binary format with `p` bits of
precision and least normal exponent `emin`: `x` is rounded to a multiple of
its unit in the last place, `2 ^ (e - (p - 1))` for `2 ^ e ≤ |x| < 2 ^ (e + 1)`
and `2 ^ (emin - (p - 1))` below `2 ^ emin` (the subnormal numbers).  Overflow
to infinity is left out: on coordinates in `[0, 1]` no operation of `Distance`
comes near the largest finite value. -/
noncomputable def roundBinary (p : Nat) (emin : Int) (x : ℝ) : ℝ :=
  let e := max (Int.log 2 |x|) emin
  let ulp : ℝ := 2 ^ (e - ((p : Int) - 1))
  roundTiesEven (x / ulp) * ulp

/-- Rounding to `float` (IEEE 754 binary32). -/
noncomputable def binary32 (x : ℝ) : ℝ := roundBinary 24 (-126) x

/-! ## The search node (`route_model.h`) -/

/-- The value of `std::numeric_limits<float>::max()` for IEEE binary32,
`(2 ^ 24 - 1) * 2 ^ 104`. -/
def FLT_MAX : ℝ := (2 ^ 24 - 1) * 2 ^ 104

/-- The class `RouteModel::Node`.  Pointers are `Option`s of the address of the
object pointed to, `none` being `nullptr`. -/
structure RouteModel.Node extends Model.Node where
  parent : Option Nat
  h_value : ℝ
  g_value : ℝ
  visited : Bool
  neighbors : List Nat
  index : Int
  parent_model : Option Nat

set_option linter.dupNamespace false

namespace RouteModel.Node

/-- The default constructor `Node() {}`: every member with a default member
initializer takes it; the base part and `index` have none here, so their
values are whatever the caller finds there (`base`, `idx`). -/
def Node_default (base : Model.Node) (idx : Int) : RouteModel.Node where
  toNode := base
  parent := none
  h_value := FLT_MAX
  g_value := 0.0
  visited := false
  neighbors := []
  index := idx
  parent_model := none

/-- The constructor `Node(int idx, RouteModel *search_model, Model::Node node)`:
the base part is copied from `node`, `parent_model` and `index` come from the
arguments, every other member takes its default member initializer. -/
def Node (idx : Int) (search_model : Option Nat) (node : Model.Node) : RouteModel.Node where
  toNode := node
  parent := none
  h_value := FLT_MAX
  g_value := 0.0
  visited := false
  neighbors := []
  index := idx
  parent_model := search_model

/-- The member function `float Distance(Node other) const`,
`std::sqrt(std::pow((x - other.x), 2) + std::pow((y - other.y), 2))`, read over
the real numbers: no operation rounds. -/
noncomputable def Distance (self other : RouteModel.Node) : ℝ :=
  Real.sqrt ((self.x - other.x) ^ 2 + (self.y - other.y) ^ 2)

end RouteModel.Node

/-- The class `RouteModel`: a `Model` together with the search nodes, the
computed `path` and the node-to-road table. -/
structure RouteModel extends Model where
  path : List RouteModel.Node
  m_Nodes : List RouteModel.Node
  node_to_road : List (Int × List Nat)

/-- The cost of a sequence of nodes: the sum of `Distance` over its pairs of
consecutive nodes (`0` for the empty and for the one-node sequence). -/
noncomputable def pathCost : List RouteModel.Node → ℝ
  | [] => 0
  | [_] => 0
  | a :: b :: rest => a.Distance b + pathCost (b :: rest)

/-! ## SFML values (`SFML/Graphics.hpp`) -/

/-- The type `sf::Vector2f`. -/
structure sf.Vector2f where
  x : ℝ
  y : ℝ

/-- The type `sf::Color`, with the alpha channel defaulting to 255. -/
structure sf.Color where
  r : Nat
  g : Nat
  b : Nat
  a : Nat := 255
  deriving DecidableEq, Repr

def sf.Color.Black : sf.Color := { r := 0, g := 0, b := 0 }

def sf.Color.Red : sf.Color := { r := 255, g := 0, b := 0 }

def sf.Color.Green : sf.Color := { r := 0, g := 255, b := 0 }

/-- The type `sf::Vertex`, as far as the renderer sets it. -/
structure sf.Vertex where
  position : sf.Vector2f
  color : sf.Color

/-- The shapes handed to `window.draw` by the routines below, each with the
properties set on it before it is drawn (rotations in radians). -/
inductive sf.Shape where
  | RectangleShape (size : sf.Vector2f) (position : sf.Vector2f) (rotation : ℝ)
      (fillColor : sf.Color)
  | CircleShape (radius : ℝ) (position : sf.Vector2f) (fillColor : sf.Color)
      (outlineColor : sf.Color) (outlineThickness : ℝ)

/-- The function `std::atan2(y, x)` over the reals: the angle in `(-π, π]` of
the point `(x, y)`, and `0` at the origin. -/
noncomputable def atan2 (y x : ℝ) : ℝ := Complex.arg ⟨x, y⟩

/-! ## Machine-level helpers -/

/-- Subtraction of two `size_t` values (64 bits, wrapping). -/
def size_t_sub (a b : Nat) : Nat := (a + 2 ^ 64 - b) % 2 ^ 64

/-- Element `i` of a C array or vector under an `int` index; `none` when the
index falls outside of it. -/
def at? {α : Type} (xs : List α) (i : Int) : Option α :=
  if i < 0 then none else xs[i.toNat]?

/-- The loop `for (size_t i = ...; i < bound; i++) body` from the value `i` of
the counter on, threading the state `s` through the iterations; `none` as soon
as an iteration faults (a read outside of a container). -/
def forLoop {σ : Type} (bound : Nat) (body : Nat → σ → Option σ) (i : Nat) (s : σ) :
    Option σ :=
  if i < bound then (body i s).bind (forLoop bound body (i + 1)) else some s
termination_by bound - i

/-! ## The renderer (`render.h`, `render.cpp`) -/

/-- The class `Render`.  A window is the list of the shapes drawn into it, in
drawing order. -/
structure Render where
  m_Model : RouteModel
  m_Scale : ℝ
  m_PixelsInMeter : ℝ
  m_WindowWidth : Nat := 800
  m_WindowHeight : Nat := 800

/-- The function `Render::ToScreen`. -/
def Render.ToScreen (self : Render) (x y : ℝ) : sf.Vector2f :=
  let screenX := x * self.m_Scale
  let screenY := (1.0 - y) * self.m_Scale
  ⟨screenX, screenY⟩

/-- The function `Render::GetRoadColor`. -/
def Render.GetRoadColor (type : Model.RoadType) : sf.Color :=
  match type with
  | .Motorway => { r := 226, g := 122, b := 143 }
  | .Trunk => { r := 245, g := 161, b := 136 }
  | .Primary => { r := 249, g := 207, b := 144 }
  | .Secondary => { r := 244, g := 251, b := 173 }
  | .Tertiary => { r := 244, g := 251, b := 173 }
  | .Residential => { r := 254, g := 254, b := 254 }
  | .Service => { r := 254, g := 254, b := 254 }
  | .Unclassified => { r := 254, g := 254, b := 254 }
  | _ => { r := 200, g := 200, b := 200 }

/-- The function `Render::GetRoadWidth`. -/
def Render.GetRoadWidth (type : Model.RoadType) : ℝ :=
  match type with
  | .Motorway => 6.0
  | .Trunk => 6.0
  | .Primary => 5.0
  | .Secondary => 4.0
  | .Tertiary => 3.0
  | .Residential => 2.5
  | .Service => 1.5
  | .Unclassified => 2.0
  | _ => 1.0

/-- The body of the outer loop of `Render::DrawRoads`, for one `road`. -/
noncomputable def Render.DrawRoads_road (self : Render) (road : Model.Road)
    (window : List sf.Shape) : Option (List sf.Shape) :=
  let ways := self.m_Model.Ways
  let nodes := self.m_Model.Nodes
  if road.type = Model.RoadType.Footway then some window
  else do
    let way ← at? ways road.way
    if way.nodes.isEmpty then some window
    else
      let color := GetRoadColor road.type
      let metricWidth := GetRoadWidth road.type
      let width := if metricWidth > 0.0 then metricWidth * self.m_PixelsInMeter else 1.0
      forLoop (size_t_sub way.nodes.length 1) (fun i window => do
        let node1 ← (way.nodes[i]?).bind (at? nodes)
        let node2 ← (way.nodes[i + 1]?).bind (at? nodes)
        let p1 := self.ToScreen node1.x node1.y
        let p2 := self.ToScreen node2.x node2.y
        let direction : sf.Vector2f := ⟨p2.x - p1.x, p2.y - p1.y⟩
        let length := Real.sqrt (direction.x * direction.x + direction.y * direction.y)
        let angleRadians := atan2 direction.y direction.x
        let roadSegment := sf.Shape.RectangleShape ⟨length, width⟩ p1 angleRadians color
        some (window ++ [roadSegment])) 0 window

/-- The function `Render::DrawRoads`: the loop over `m_Model.Roads()`. -/
noncomputable def Render.DrawRoads (self : Render) (window : List sf.Shape) :
    Option (List sf.Shape) :=
  self.m_Model.Roads.foldlM (fun window road => self.DrawRoads_road road window) window

/-- The function `Render::DrawPath`. -/
noncomputable def Render.DrawPath (self : Render) (window : List sf.Shape) :
    Option (List sf.Shape) :=
  if self.m_Model.path.isEmpty then some window
  else
    let line : List sf.Vertex := self.m_Model.path.map (fun node =>
      let pos := self.ToScreen node.x node.y
      { position := pos, color := { r := 255, g := 165, b := 0 } })
    forLoop (size_t_sub line.length 1) (fun i window => do
      let p1 ← line.get? i
      let p2 ← line.get? (i + 1)
      let direction : sf.Vector2f :=
        ⟨p2.position.x - p1.position.x, p2.position.y - p1.position.y⟩
      let length := Real.sqrt (direction.x * direction.x + direction.y * direction.y)
      let angleRadians := atan2 direction.y direction.x
      let thickLine := sf.Shape.RectangleShape ⟨length, 5.0⟩ p1.position angleRadians
        { r := 255, g := 165, b := 0 }
      some (window ++ [thickLine])) 0 window

/-- The function `Render::DrawStartPosition`. -/
def Render.DrawStartPosition (self : Render) (window : List sf.Shape) :
    Option (List sf.Shape) :=
  if self.m_Model.path.isEmpty then some window
  else do
    let front ← self.m_Model.path.head?
    let pos := self.ToScreen front.x front.y
    let marker := sf.Shape.CircleShape 10.0 ⟨pos.x - 10.0, pos.y - 10.0⟩ sf.Color.Green
      sf.Color.Black 2.0
    some (window ++ [marker])

/-- The function `Render::DrawEndPosition`. -/
def Render.DrawEndPosition (self : Render) (window : List sf.Shape) :
    Option (List sf.Shape) :=
  if self.m_Model.path.isEmpty then some window
  else do
    let back ← self.m_Model.path.getLast?
    let pos := self.ToScreen back.x back.y
    let marker := sf.Shape.CircleShape 10.0 ⟨pos.x - 10.0, pos.y - 10.0⟩ sf.Color.Red
      sf.Color.Black 2.0
    some (window ++ [marker])

/-- The constructor `Render::Render(RouteModel &model)`. -/
noncomputable def Render.Render (model : RouteModel) : Render :=
  let m_WindowWidth : Nat := 800
  let m_WindowHeight : Nat := 800
  let m_Scale : ℝ := ((min m_WindowWidth m_WindowHeight : Nat) : ℝ)
  { m_Model := model
    m_Scale := m_Scale
    m_PixelsInMeter := m_Scale / model.MetricScale
    m_WindowWidth := m_WindowWidth
    m_WindowHeight := m_WindowHeight }

/-! ## A sample map

The scenario of the specification: the nodes `A(0,0)`, `B(0.5,0)`, `C(1,0)`
joined by one way, next to an empty way and a one-node way. -/

def sampleNodes : List Model.Node := [⟨0, 0⟩, ⟨0.5, 0⟩, ⟨1, 0⟩]

def sampleModel : Model where
  Nodes := sampleNodes
  Ways := [⟨[0, 1, 2]⟩, ⟨[]⟩, ⟨[2]⟩]
  Roads := [⟨0, .Residential⟩, ⟨0, .Footway⟩, ⟨1, .Primary⟩, ⟨2, .Service⟩]
  MetricScale := 1000

def sampleA : RouteModel.Node := RouteModel.Node.Node 0 (some 0) ⟨0, 0⟩

def sampleB : RouteModel.Node := RouteModel.Node.Node 1 (some 0) ⟨0.5, 0⟩

def sampleC : RouteModel.Node := RouteModel.Node.Node 2 (some 0) ⟨1, 0⟩

/-- The sample map with `path` as the result of the search. -/
def sampleRouteModel (path : List RouteModel.Node) : RouteModel where
  toModel := sampleModel
  path := path
  m_Nodes := [sampleA, sampleB, sampleC]
  node_to_road := [(0, [0, 1]), (1, [0, 1]), (2, [0, 1, 3])]

/-! ## Measuring what was drawn -/

/-- The length of a drawn shape along its own axis: the first component of the
size of a rectangle (`sf::Vector2f(length, width)`), and `0` for a marker. -/
def sf.Shape.length : sf.Shape → ℝ
  | .RectangleShape size _ _ _ => size.x
  | .CircleShape _ _ _ _ _ => 0

/-- The total length of the rectangles among `shapes`. -/
def drawnLength (shapes : List sf.Shape) : ℝ :=
  (shapes.map sf.Shape.length).sum

/-! ## Well-formed road data -/

/-- The way of `road` is one `DrawRoads` can walk: the road is a footway (its
way is never looked at), or `road.way` is the index of a way of the model
whose node count fits a `size_t` and whose entries are indices of nodes of the
model. -/
def roadWellFormed (self : Render) (road : Model.Road) : Bool :=
  road.type == Model.RoadType.Footway ||
    match at? self.m_Model.Ways road.way with
    | some way =>
      decide (way.nodes.length < 2 ^ 64)
        && way.nodes.all (fun n => (at? self.m_Model.Nodes n).isSome)
    | none => false

/-- The number of rectangles one road stands for: none for a footway and for a
road without a way, else one per pair of consecutive way nodes. -/
def roadSegmentCount (self : Render) (road : Model.Road) : Nat :=
  if road.type = Model.RoadType.Footway then 0
  else
    match at? self.m_Model.Ways road.way with
    | some way => way.nodes.length - 1
    | none => 0

/-! ## Distance: basic facts -/

theorem Distance_eq_abs (a b : RouteModel.Node) :
    a.Distance b = Complex.abs ⟨a.x - b.x, a.y - b.y⟩ := by
  simp [RouteModel.Node.Distance, Complex.abs_apply, Complex.normSq_apply, sq]

theorem Distance_triangle (a b c : RouteModel.Node) :
    a.Distance c ≤ a.Distance b + b.Distance c := by
  rw [Distance_eq_abs, Distance_eq_abs, Distance_eq_abs]
  have h : (⟨a.x - c.x, a.y - c.y⟩ : ℂ)
      = ⟨a.x - b.x, a.y - b.y⟩ + ⟨b.x - c.x, b.y - c.y⟩ := by
    apply Complex.ext <;> simp
  rw [h]
  exact Complex.abs.add_le _ _

theorem Distance_nonneg (a b : RouteModel.Node) : 0 ≤ a.Distance b :=
  Real.sqrt_nonneg _

theorem Distance_comm (a b : RouteModel.Node) : a.Distance b = b.Distance a := by
  unfold RouteModel.Node.Distance
  congr 1
  ring

theorem Distance_eq_zero_iff (a b : RouteModel.Node) :
    a.Distance b = 0 ↔ a.x = b.x ∧ a.y = b.y := by
  unfold RouteModel.Node.Distance
  have hx : 0 ≤ (a.x - b.x) ^ 2 := sq_nonneg _
  have hy : 0 ≤ (a.y - b.y) ^ 2 := sq_nonneg _
  rw [Real.sqrt_eq_zero (add_nonneg hx hy)]
  constructor
  · intro h
    have h1 : (a.x - b.x) ^ 2 = 0 := by linarith
    have h2 : (a.y - b.y) ^ 2 = 0 := by linarith
    exact ⟨sub_eq_zero.mp (pow_eq_zero_iff (by norm_num) |>.mp h1),
      sub_eq_zero.mp (pow_eq_zero_iff (by norm_num) |>.mp h2)⟩
  · rintro ⟨h1, h2⟩
    rw [h1, h2]
    ring

theorem Distance_self (a : RouteModel.Node) : a.Distance a = 0 :=
  (Distance_eq_zero_iff a a).mpr ⟨rfl, rfl⟩

theorem pathCost_nonneg (p : List RouteModel.Node) : 0 ≤ pathCost p := by
  induction p with
  | nil => simp [pathCost]
  | cons a rest ih =>
    cases rest with
    | nil => simp [pathCost]
    | cons b rest =>
      simp only [pathCost]
      exact add_nonneg (Distance_nonneg a b) ih

/-- The straight-line distance from the first node of a chain to its last one
is at most the cost of the chain. -/
theorem Distance_le_pathCost (a : RouteModel.Node) (rest : List RouteModel.Node) :
    a.Distance ((a :: rest).getLast (List.cons_ne_nil a rest)) ≤ pathCost (a :: rest) := by
  induction rest generalizing a with
  | nil => simp [pathCost, Distance_self]
  | cons b rest ih =>
    have hlast : (a :: b :: rest).getLast (List.cons_ne_nil a (b :: rest))
        = (b :: rest).getLast (List.cons_ne_nil b rest) := by
      simp [List.getLast_cons]
    rw [hlast]
    simp only [pathCost]
    exact le_trans (Distance_triangle a b _) (add_le_add_left (ih b) _)

/-! ## Rounding: basic facts -/

theorem roundTiesEven_intCast (n : ℤ) : roundTiesEven n = n := by
  unfold roundTiesEven
  rw [Int.floor_intCast, sub_self, if_pos (by norm_num)]

theorem log_two_zpow (k : ℤ) : Int.log 2 |(2 : ℝ) ^ k| = k := by
  rw [abs_of_pos (zpow_pos (by norm_num) k)]
  have := Int.log_zpow (R := ℝ) (b := 2) (by norm_num) k
  simpa using this

/-- The least positive `float`, `2 ^ (-149)`, is a value of the format. -/
theorem binary32_least_subnormal : binary32 ((2 : ℝ) ^ (-149 : ℤ)) = (2 : ℝ) ^ (-149 : ℤ) := by
  unfold binary32 roundBinary
  simp only [log_two_zpow]
  have hq : (2 : ℝ) ^ (-149 : ℤ) / 2 ^ (max (-149 : ℤ) (-126) - (((24 : ℕ) : ℤ) - 1))
      = ((1 : ℤ) : ℝ) := by
    have h2 : (2 : ℝ) ≠ 0 := by norm_num
    rw [← zpow_sub₀ h2]
    have : (-149 : ℤ) - (max (-149 : ℤ) (-126) - (((24 : ℕ) : ℤ) - 1)) = 0 := by decide
    rw [this]
    norm_num
  rw [hq, roundTiesEven_intCast]
  have : max (-149 : ℤ) (-126) - (((24 : ℕ) : ℤ) - 1) = -149 := by decide
  rw [this]
  norm_num

/-- C1: admissibility of the heuristic.  For every chain of nodes that starts
at `N` and ends at `E`, `N.Distance E` is at most the cost of the chain, the
sum of `Distance` over its consecutive pairs. -/
theorem C1_heuristic_admissible (N E : RouteModel.Node) (chain : List RouteModel.Node)
    (hfirst : chain.head? = some N) (hlast : chain.getLast? = some E) :
    N.Distance E ≤ pathCost chain := by
  cases chain with
  | nil => simp at hfirst
  | cons a rest =>
    simp only [List.head?_cons, Option.some.injEq] at hfirst
    subst hfirst
    rw [List.getLast?_eq_getLast _ (List.cons_ne_nil a rest)] at hlast
    simp only [Option.some.injEq] at hlast
    rw [← hlast]
    exact Distance_le_pathCost a rest

/-- The chain `A, B, C` of the sample map: the straight line from `A` to `C`
is no longer than the chain. -/
theorem C1_heuristic_witness :
    [sampleA, sampleB, sampleC].head? = some sampleA
    ∧ [sampleA, sampleB, sampleC].getLast? = some sampleC
    ∧ sampleA.Distance sampleC ≤ pathCost [sampleA, sampleB, sampleC] :=
  ⟨rfl, rfl, C1_heuristic_admissible sampleA sampleC [sampleA, sampleB, sampleC] rfl rfl⟩

/-- C2: consistency of the heuristic.  With `h X = X.Distance E` and edge
weight `N.Distance M`, `h N ≤ weight N M + h M` for all nodes `N`, `M`, `E`. -/
theorem C2_heuristic_consistent (N M E : RouteModel.Node) :
    N.Distance E ≤ N.Distance M + M.Distance E :=
  Distance_triangle N M E

/-- C3: `Distance` is the plain Euclidean distance between the coordinates of
the two nodes, is non-negative, is symmetric, and takes the same value on any
two nodes with the same coordinates, whatever their search state. -/
theorem C3_Distance_euclidean (a b : RouteModel.Node) :
    a.Distance b = Real.sqrt ((a.x - b.x) ^ 2 + (a.y - b.y) ^ 2)
    ∧ 0 ≤ a.Distance b
    ∧ a.Distance b = b.Distance a
    ∧ ∀ a2 b2 : RouteModel.Node, a2.x = a.x → a2.y = a.y → b2.x = b.x → b2.y = b.y →
        a2.Distance b2 = a.Distance b := by
  refine ⟨rfl, Distance_nonneg a b, Distance_comm a b, ?_⟩
  intro a2 b2 h1 h2 h3 h4
  unfold RouteModel.Node.Distance
  rw [h1, h2, h3, h4]

/-- C5: the search node built by `Node(i, model, n)` has the coordinates of
`n` and is unvisited: `visited = false`, no parent, no neighbors, `g = 0`. -/
theorem C5_Node_initial_state (i : Int) (model : Option Nat) (n : Model.Node) :
    (RouteModel.Node.Node i model n).x = n.x
    ∧ (RouteModel.Node.Node i model n).y = n.y
    ∧ (RouteModel.Node.Node i model n).visited = false
    ∧ (RouteModel.Node.Node i model n).parent = none
    ∧ (RouteModel.Node.Node i model n).neighbors = []
    ∧ (RouteModel.Node.Node i model n).g_value = 0 := by
  refine ⟨rfl, rfl, rfl, rfl, rfl, ?_⟩
  simp only [RouteModel.Node.Node]
  norm_num

/-- C7, as stated, fails: the `h_value` of the node built by `Node(0, nullptr, n)`
for `n` at the origin is the maximal finite `float`,
`340282346638528859811704183484516925440`. -/
theorem C7_h_value_is_sentinel :
    (RouteModel.Node.Node 0 none ⟨0, 0⟩).h_value = FLT_MAX
    ∧ FLT_MAX = 340282346638528859811704183484516925440 := by
  refine ⟨rfl, ?_⟩
  unfold FLT_MAX
  norm_num

/-- C7, amended: the costs of a fresh search node are numeric defaults held in
plain `float` members.  After either constructor `h_value` is the maximal
finite `float` and `g_value` is `0`. -/
theorem C7_fresh_costs_are_numeric (i : Int) (model : Option Nat) (n : Model.Node) :
    (RouteModel.Node.Node i model n).h_value = FLT_MAX
    ∧ (RouteModel.Node.Node i model n).g_value = 0
    ∧ (RouteModel.Node.Node_default n i).h_value = FLT_MAX
    ∧ (RouteModel.Node.Node_default n i).g_value = 0 := by
  refine ⟨rfl, ?_, rfl, ?_⟩
  · simp only [RouteModel.Node.Node]
    norm_num
  · simp only [RouteModel.Node.Node_default]
    norm_num

/-! ## Loops and `size_t` bounds -/

theorem size_t_sub_one (n : Nat) (h1 : 1 ≤ n) (h2 : n < 2 ^ 64) : size_t_sub n 1 = n - 1 := by
  unfold size_t_sub
  have : n + 2 ^ 64 - 1 = (n - 1) + 2 ^ 64 := by omega
  rw [this, Nat.add_mod_right]
  exact Nat.mod_eq_of_lt (by omega)

/-- On `size_t`, `0 - 1` wraps to the largest value. -/
theorem size_t_sub_zero_one : size_t_sub 0 1 = 2 ^ 64 - 1 := by
  decide

/-- What the guard `if (...empty()) return;` prevents: over an empty sequence
the wrapped bound lets the loop start, and its first iteration reads out of
range. -/
theorem forLoop_empty_faults {β α : Type} (mk : β → β → α) (w : List α) :
    forLoop (size_t_sub ([] : List β).length 1) (fun i window => do
      let p1 ← ([] : List β).get? i
      let p2 ← ([] : List β).get? (i + 1)
      some (window ++ [mk p1 p2])) 0 w = none := by
  have hbound : 0 < size_t_sub ([] : List β).length 1 := by
    rw [List.length_nil, size_t_sub_zero_one]
    decide
  rw [forLoop, if_pos hbound]
  rfl

/-- A loop whose iteration `i` appends the one item `g i` to the state runs to
its end when every `g i` below the bound is defined, and appends exactly the
items `g 0`, ..., `g (bound - 1)`, in this order. -/
theorem forLoop_emit {α : Type} (bound : Nat) (body : Nat → List α → Option (List α))
    (g : Nat → Option α)
    (hbody : ∀ i w, i < bound → body i w = (g i).map (fun s => w ++ [s]))
    (hg : ∀ i, i < bound → (g i).isSome = true) :
    ∀ k i w, i + k = bound →
      ∃ out, forLoop bound body i w = some (w ++ out) ∧ out.length = k
        ∧ ∀ j, j < k → out[j]? = g (i + j) := by
  intro k
  induction k with
  | zero =>
    intro i w hik
    refine ⟨[], ?_, rfl, ?_⟩
    · rw [forLoop, if_neg (by omega)]
      simp
    · intro j hj
      omega
  | succ k ih =>
    intro i w hik
    have hi : i < bound := by omega
    obtain ⟨s, hs⟩ := Option.isSome_iff_exists.mp (hg i hi)
    obtain ⟨out, hout, hlen, hget⟩ := ih (i + 1) (w ++ [s]) (by omega)
    refine ⟨s :: out, ?_, by simp [hlen], ?_⟩
    · rw [forLoop, if_pos hi, hbody i w hi, hs]
      simp [hout]
    · intro j hj
      cases j with
      | zero => simpa using hs.symm
      | succ j =>
        have := hget j (by omega)
        simp only [List.getElem?_cons_succ, this]
        congr 1
        omega

/-- The loops of `DrawPath` and `DrawRoads`: iteration `i` looks up the items
at positions `i` and `i + 1` and appends the shape made of the two. -/
theorem forLoop_pairs {β α : Type} (bound : Nat) (get : Nat → Option β) (mk : β → β → α)
    (hget : ∀ i, i ≤ bound → (get i).isSome = true) (w : List α) :
    ∃ out, forLoop bound (fun i window => do
          let p1 ← get i
          let p2 ← get (i + 1)
          some (window ++ [mk p1 p2])) 0 w = some (w ++ out)
      ∧ out.length = bound
      ∧ ∀ i a b, i < bound → get i = some a → get (i + 1) = some b →
          out[i]? = some (mk a b) := by
  obtain ⟨out, hout, hlen, hout_get⟩ := forLoop_emit bound
    (fun i window => do
      let p1 ← get i
      let p2 ← get (i + 1)
      some (window ++ [mk p1 p2]))
    (fun i => do
      let p1 ← get i
      let p2 ← get (i + 1)
      some (mk p1 p2))
    (by
      intro i w hi
      beta_reduce
      cases get i <;> cases get (i + 1) <;> rfl)
    (by
      intro i hi
      obtain ⟨a, ha⟩ := Option.isSome_iff_exists.mp (hget i (by omega))
      obtain ⟨b, hb⟩ := Option.isSome_iff_exists.mp (hget (i + 1) (by omega))
      simp [ha, hb])
    bound 0 w (by omega)
  refine ⟨out, hout, hlen, ?_⟩
  intro i a b hi ha hb
  rw [hout_get i hi]
  simp [ha, hb]

/-! ## `DrawPath` -/

/-- On a non-empty path `DrawPath` runs to its end and appends one rectangle
per pair of consecutive path nodes, in path order. -/
theorem DrawPath_emits (r : Render) (w : List sf.Shape) (hne : r.m_Model.path ≠ [])
    (hsz : r.m_Model.path.length < 2 ^ 64) :
    ∃ rects, r.DrawPath w = some (w ++ rects)
      ∧ rects.length = r.m_Model.path.length - 1
      ∧ ∀ i a b, r.m_Model.path[i]? = some a → r.m_Model.path[i + 1]? = some b →
          rects[i]? = some (sf.Shape.RectangleShape
            ⟨Real.sqrt (((r.ToScreen b.x b.y).x - (r.ToScreen a.x a.y).x)
                * ((r.ToScreen b.x b.y).x - (r.ToScreen a.x a.y).x)
              + ((r.ToScreen b.x b.y).y - (r.ToScreen a.x a.y).y)
                * ((r.ToScreen b.x b.y).y - (r.ToScreen a.x a.y).y)), 5.0⟩
            (r.ToScreen a.x a.y)
            (atan2 ((r.ToScreen b.x b.y).y - (r.ToScreen a.x a.y).y)
              ((r.ToScreen b.x b.y).x - (r.ToScreen a.x a.y).x))
            { r := 255, g := 165, b := 0 }) := by
  have hpos : 1 ≤ r.m_Model.path.length := by
    cases hp : r.m_Model.path with
    | nil => exact absurd hp hne
    | cons a rest => simp
  have hempty : r.m_Model.path.isEmpty = false := by
    cases hp : r.m_Model.path with
    | nil => exact absurd hp hne
    | cons a rest => rfl
  obtain ⟨out, hout, hlen, hout_get⟩ := forLoop_pairs (r.m_Model.path.length - 1)
    (fun i => (r.m_Model.path.map (fun node =>
        ({ position := r.ToScreen node.x node.y, color := { r := 255, g := 165, b := 0 } } :
          sf.Vertex))).get? i)
    (fun p1 p2 => sf.Shape.RectangleShape
        ⟨Real.sqrt ((p2.position.x - p1.position.x) * (p2.position.x - p1.position.x)
          + (p2.position.y - p1.position.y) * (p2.position.y - p1.position.y)), 5.0⟩
        p1.position
        (atan2 (p2.position.y - p1.position.y) (p2.position.x - p1.position.x))
        { r := 255, g := 165, b := 0 })
    (by
      intro i hi
      have h1 : i < r.m_Model.path.length := by omega
      simp [List.getElem?_eq_getElem h1])
    w
  refine ⟨out, ?_, hlen, ?_⟩
  · unfold Render.DrawPath
    simp only [hempty, Bool.false_eq_true, if_false, List.length_map]
    rw [size_t_sub_one _ hpos hsz]
    exact hout
  · intro i a b ha hb
    have hi : i < r.m_Model.path.length - 1 := by
      have := (List.getElem?_eq_some_iff.mp hb).1
      omega
    exact hout_get i
      { position := r.ToScreen a.x a.y, color := { r := 255, g := 165, b := 0 } }
      { position := r.ToScreen b.x b.y, color := { r := 255, g := 165, b := 0 } }
      hi (by simp [ha]) (by simp [hb])

/-- C6: with an empty path `DrawPath`, `DrawStartPosition` and
`DrawEndPosition` all return without a fault and leave the window as it was:
nothing is drawn and no element of the path is read. -/
theorem C6_empty_path_draws_nothing (r : Render) (w : List sf.Shape)
    (hempty : r.m_Model.path = []) :
    r.DrawPath w = some w ∧ r.DrawStartPosition w = some w ∧ r.DrawEndPosition w = some w := by
  refine ⟨?_, ?_, ?_⟩
  · simp [Render.DrawPath, hempty]
  · simp [Render.DrawStartPosition, hempty]
  · simp [Render.DrawEndPosition, hempty]

/-- The sample map before any search: the path is empty and nothing is drawn. -/
theorem C6_empty_path_witness :
    (Render.Render (sampleRouteModel [])).DrawPath [] = some []
    ∧ (Render.Render (sampleRouteModel [])).DrawStartPosition [] = some []
    ∧ (Render.Render (sampleRouteModel [])).DrawEndPosition [] = some [] :=
  C6_empty_path_draws_nothing (Render.Render (sampleRouteModel [])) [] rfl

/-- On a non-empty path the two markers are drawn: the guards of
`DrawStartPosition` and `DrawEndPosition` only skip the empty path. -/
theorem markers_drawn (r : Render) (w : List sf.Shape) (a : RouteModel.Node)
    (rest : List RouteModel.Node) (hpath : r.m_Model.path = a :: rest) :
    r.DrawStartPosition w = some (w ++ [sf.Shape.CircleShape 10.0
        ⟨(r.ToScreen a.x a.y).x - 10.0, (r.ToScreen a.x a.y).y - 10.0⟩
        sf.Color.Green sf.Color.Black 2.0])
    ∧ ∃ m, r.DrawEndPosition w = some (w ++ [m]) := by
  constructor
  · simp [Render.DrawStartPosition, hpath]
  · unfold Render.DrawEndPosition
    rw [hpath, List.getLast?_eq_getLast _ (List.cons_ne_nil a rest)]
    exact ⟨_, rfl⟩

/-- C8: on a non-empty path of `n` nodes `DrawPath` appends exactly `n - 1`
rectangles to the window, in path order, the `i`-th at the screen position of
the `i`-th node and turned towards the `(i + 1)`-th; the loop bound
`getVertexCount() - 1` is `n - 1` without wrapping, every index read lies
below `n`, and a one-node path draws nothing. -/
theorem C8_DrawPath_segments (r : Render) (w : List sf.Shape)
    (hne : r.m_Model.path ≠ []) (hsz : r.m_Model.path.length < 2 ^ 64) :
    (∃ rects, r.DrawPath w = some (w ++ rects)
      ∧ rects.length = r.m_Model.path.length - 1
      ∧ ∀ i a b, r.m_Model.path[i]? = some a → r.m_Model.path[i + 1]? = some b →
          rects[i]? = some (sf.Shape.RectangleShape
            ⟨Real.sqrt (((r.ToScreen b.x b.y).x - (r.ToScreen a.x a.y).x)
                * ((r.ToScreen b.x b.y).x - (r.ToScreen a.x a.y).x)
              + ((r.ToScreen b.x b.y).y - (r.ToScreen a.x a.y).y)
                * ((r.ToScreen b.x b.y).y - (r.ToScreen a.x a.y).y)), 5.0⟩
            (r.ToScreen a.x a.y)
            (atan2 ((r.ToScreen b.x b.y).y - (r.ToScreen a.x a.y).y)
              ((r.ToScreen b.x b.y).x - (r.ToScreen a.x a.y).x))
            { r := 255, g := 165, b := 0 }))
    ∧ size_t_sub r.m_Model.path.length 1 = r.m_Model.path.length - 1
    ∧ (∀ i, i < size_t_sub r.m_Model.path.length 1 →
        i < r.m_Model.path.length ∧ i + 1 < r.m_Model.path.length)
    ∧ (r.m_Model.path.length = 1 → r.DrawPath w = some w) := by
  have hpos : 1 ≤ r.m_Model.path.length := by
    cases hp : r.m_Model.path with
    | nil => exact absurd hp hne
    | cons a rest => simp
  have hbound := size_t_sub_one _ hpos hsz
  obtain ⟨rects, hdraw, hlen, hget⟩ := DrawPath_emits r w hne hsz
  refine ⟨⟨rects, hdraw, hlen, hget⟩, hbound, ?_, ?_⟩
  · intro i hi
    rw [hbound] at hi
    omega
  · intro h1
    have : rects = [] := List.length_eq_zero.mp (by omega)
    rw [hdraw, this, List.append_nil]

/-- The path `A, B, C` of the sample map is drawn as two rectangles. -/
theorem C8_DrawPath_witness :
    (Render.Render (sampleRouteModel [sampleA, sampleB, sampleC])).m_Model.path ≠ []
    ∧ ∃ rects, (Render.Render (sampleRouteModel [sampleA, sampleB, sampleC])).DrawPath []
        = some ([] ++ rects) ∧ rects.length = 2 := by
  have h := C8_DrawPath_segments (Render.Render (sampleRouteModel [sampleA, sampleB, sampleC])) []
    (by simp [Render.Render, sampleRouteModel]) (by simp [Render.Render, sampleRouteModel])
  obtain ⟨⟨rects, hdraw, hlen, _⟩, _⟩ := h
  exact ⟨by simp [Render.Render, sampleRouteModel], rects, hdraw, hlen⟩

/-! ## Screen geometry -/

/-- The distance of two screen points is `m_Scale` times the `Distance` of the
nodes they stand for, the flip of the y-axis notwithstanding. -/
theorem ToScreen_dist (r : Render) (hs : 0 ≤ r.m_Scale) (a b : RouteModel.Node) :
    Real.sqrt (((r.ToScreen b.x b.y).x - (r.ToScreen a.x a.y).x)
        * ((r.ToScreen b.x b.y).x - (r.ToScreen a.x a.y).x)
      + ((r.ToScreen b.x b.y).y - (r.ToScreen a.x a.y).y)
        * ((r.ToScreen b.x b.y).y - (r.ToScreen a.x a.y).y))
      = r.m_Scale * a.Distance b := by
  unfold Render.ToScreen RouteModel.Node.Distance
  have h : (b.x * r.m_Scale - a.x * r.m_Scale) * (b.x * r.m_Scale - a.x * r.m_Scale)
      + ((1.0 - b.y) * r.m_Scale - (1.0 - a.y) * r.m_Scale)
        * ((1.0 - b.y) * r.m_Scale - (1.0 - a.y) * r.m_Scale)
      = r.m_Scale ^ 2 * ((a.x - b.x) ^ 2 + (a.y - b.y) ^ 2) := by
    ring
  simp only []
  rw [h, Real.sqrt_mul (sq_nonneg _), Real.sqrt_sq hs]

/-- Rectangles drawn one per pair of consecutive nodes, each `c` times as long
as the pair is distant, add up to `c` times the cost of the path. -/
theorem drawnLength_segments (c : ℝ) (f : RouteModel.Node → RouteModel.Node → sf.Shape)
    (hf : ∀ a b, (f a b).length = c * a.Distance b) :
    ∀ (path : List RouteModel.Node) (rects : List sf.Shape),
      rects.length = path.length - 1 →
      (∀ i a b, path[i]? = some a → path[i + 1]? = some b → rects[i]? = some (f a b)) →
      drawnLength rects = c * pathCost path := by
  intro path
  induction path with
  | nil =>
    intro rects hlen _
    have : rects = [] := List.length_eq_zero.mp (by simpa using hlen)
    simp [this, drawnLength, pathCost]
  | cons a rest ih =>
    intro rects hlen hget
    cases rest with
    | nil =>
      have : rects = [] := List.length_eq_zero.mp (by simpa using hlen)
      simp [this, drawnLength, pathCost]
    | cons b rest =>
      cases rects with
      | nil => simp at hlen
      | cons s rects =>
        have hs : s = f a b := by
          have := hget 0 a b (by simp) (by simp)
          simpa using this
        have htail : drawnLength rects = c * pathCost (b :: rest) := by
          apply ih rects
          · simpa using hlen
          · intro i a2 b2 ha2 hb2
            have := hget (i + 1) a2 b2 (by simpa using ha2) (by simpa using hb2)
            simpa using this
        have hcons : drawnLength (s :: rects) = s.length + drawnLength rects := by
          simp [drawnLength]
        rw [hcons, htail, hs, hf]
        simp only [pathCost]
        ring

theorem sample_Distance_AB : sampleA.Distance sampleB = 1 / 2 := by
  unfold RouteModel.Node.Distance sampleA sampleB RouteModel.Node.Node
  simp only []
  rw [show ((0 : ℝ) - 0.5) ^ 2 + ((0 : ℝ) - 0) ^ 2 = (1 / 2) ^ 2 by norm_num]
  exact Real.sqrt_sq (by norm_num)

theorem sample_Distance_BC : sampleB.Distance sampleC = 1 / 2 := by
  unfold RouteModel.Node.Distance sampleB sampleC RouteModel.Node.Node
  simp only []
  rw [show ((0.5 : ℝ) - 1) ^ 2 + ((0 : ℝ) - 0) ^ 2 = (1 / 2) ^ 2 by norm_num]
  exact Real.sqrt_sq (by norm_num)

/-- The scenario of the specification: the path `[A, B, C]` costs `1.0`. -/
theorem sample_pathCost : pathCost [sampleA, sampleB, sampleC] = 1 := by
  simp only [pathCost, sample_Distance_AB, sample_Distance_BC]
  norm_num

theorem sample_m_Scale (path : List RouteModel.Node) :
    (Render.Render (sampleRouteModel path)).m_Scale = 800 := by
  simp [Render.Render]

/-- C9: for a scale `m_Scale ≥ 0` the screen distance of `ToScreen(a.x, a.y)`
and `ToScreen(b.x, b.y)` is `m_Scale * a.Distance(b)`; this is the length of
every rectangle `DrawPath` draws, and the lengths of the rectangles drawn for
a path add up to `m_Scale` times the cost of the path. -/
theorem C9_render_scales_distance (r : Render) (w : List sf.Shape)
    (hs : 0 ≤ r.m_Scale) (hsz : r.m_Model.path.length < 2 ^ 64) :
    (∀ a b : RouteModel.Node,
      Real.sqrt (((r.ToScreen b.x b.y).x - (r.ToScreen a.x a.y).x)
          * ((r.ToScreen b.x b.y).x - (r.ToScreen a.x a.y).x)
        + ((r.ToScreen b.x b.y).y - (r.ToScreen a.x a.y).y)
          * ((r.ToScreen b.x b.y).y - (r.ToScreen a.x a.y).y))
        = r.m_Scale * a.Distance b)
    ∧ ∃ rects, r.DrawPath w = some (w ++ rects)
        ∧ (∀ i a b, r.m_Model.path[i]? = some a → r.m_Model.path[i + 1]? = some b →
            ∃ s, rects[i]? = some s ∧ s.length = r.m_Scale * a.Distance b)
        ∧ drawnLength rects = r.m_Scale * pathCost r.m_Model.path := by
  refine ⟨ToScreen_dist r hs, ?_⟩
  by_cases hne : r.m_Model.path = []
  · refine ⟨[], ?_, ?_, ?_⟩
    · simp [Render.DrawPath, hne]
    · intro i a b ha
      simp [hne] at ha
    · simp [hne, drawnLength, pathCost]
  · obtain ⟨rects, hdraw, hlen, hget⟩ := DrawPath_emits r w hne hsz
    refine ⟨rects, hdraw, ?_, ?_⟩
    · intro i a b ha hb
      exact ⟨_, hget i a b ha hb, ToScreen_dist r hs a b⟩
    · exact drawnLength_segments r.m_Scale
        (fun a b => sf.Shape.RectangleShape
          ⟨Real.sqrt (((r.ToScreen b.x b.y).x - (r.ToScreen a.x a.y).x)
              * ((r.ToScreen b.x b.y).x - (r.ToScreen a.x a.y).x)
            + ((r.ToScreen b.x b.y).y - (r.ToScreen a.x a.y).y)
              * ((r.ToScreen b.x b.y).y - (r.ToScreen a.x a.y).y)), 5.0⟩
          (r.ToScreen a.x a.y)
          (atan2 ((r.ToScreen b.x b.y).y - (r.ToScreen a.x a.y).y)
            ((r.ToScreen b.x b.y).x - (r.ToScreen a.x a.y).x))
          { r := 255, g := 165, b := 0 })
        (fun a b => ToScreen_dist r hs a b) r.m_Model.path rects hlen hget

/-- The path `A, B, C` of cost `1.0` is drawn `800` pixels long. -/
theorem C9_render_scales_witness :
    (0 : ℝ) ≤ (Render.Render (sampleRouteModel [sampleA, sampleB, sampleC])).m_Scale
    ∧ ∃ rects, (Render.Render (sampleRouteModel [sampleA, sampleB, sampleC])).DrawPath []
        = some ([] ++ rects) ∧ drawnLength rects = 800 := by
  have hs : (0 : ℝ)
      ≤ (Render.Render (sampleRouteModel [sampleA, sampleB, sampleC])).m_Scale := by
    rw [sample_m_Scale]
    norm_num
  obtain ⟨_, rects, hdraw, _, hsum⟩ :=
    C9_render_scales_distance (Render.Render (sampleRouteModel [sampleA, sampleB, sampleC])) []
      hs (by simp [Render.Render, sampleRouteModel])
  refine ⟨hs, rects, hdraw, ?_⟩
  rw [hsum, sample_m_Scale]
  have : (Render.Render (sampleRouteModel [sampleA, sampleB, sampleC])).m_Model.path
      = [sampleA, sampleB, sampleC] := rfl
  rw [this, sample_pathCost]
  norm_num

/-! ## `DrawRoads` -/

theorem GetRoadWidth_pos (type : Model.RoadType) : 0 < Render.GetRoadWidth type := by
  cases type <;> simp only [Render.GetRoadWidth] <;> norm_num

/-- The width computed by `DrawRoads` is never the fallback `1.0`. -/
theorem DrawRoads_width (ppm : ℝ) (type : Model.RoadType) :
    (if Render.GetRoadWidth type > 0.0 then Render.GetRoadWidth type * ppm else 1.0)
      = Render.GetRoadWidth type * ppm := by
  have h : Render.GetRoadWidth type > 0.0 := by
    have := GetRoadWidth_pos type
    norm_num
    exact this
  rw [if_pos h]

theorem DrawRoads_road_footway (r : Render) (road : Model.Road) (w : List sf.Shape)
    (hfoot : road.type = Model.RoadType.Footway) : r.DrawRoads_road road w = some w := by
  simp [Render.DrawRoads_road, hfoot]

theorem DrawRoads_road_empty (r : Render) (road : Model.Road) (way : Model.Way)
    (w : List sf.Shape) (hway : at? r.m_Model.Ways road.way = some way)
    (hempty : way.nodes = []) : r.DrawRoads_road road w = some w := by
  by_cases hfoot : road.type = Model.RoadType.Footway
  · exact DrawRoads_road_footway r road w hfoot
  · simp [Render.DrawRoads_road, hfoot, hway, hempty]

/-- For a road that is no footway and whose way is not empty, the body of
`DrawRoads` runs to its end and appends one rectangle per pair of consecutive
way nodes. -/
theorem DrawRoads_road_emits (r : Render) (road : Model.Road) (way : Model.Way)
    (w : List sf.Shape) (hfoot : road.type ≠ Model.RoadType.Footway)
    (hway : at? r.m_Model.Ways road.way = some way) (hne : way.nodes ≠ [])
    (hsz : way.nodes.length < 2 ^ 64)
    (hnodes : ∀ n, n ∈ way.nodes → (at? r.m_Model.Nodes n).isSome = true) :
    ∃ rects, r.DrawRoads_road road w = some (w ++ rects)
      ∧ rects.length = way.nodes.length - 1
      ∧ ∀ i n1 n2 node1 node2, way.nodes[i]? = some n1 → way.nodes[i + 1]? = some n2 →
          at? r.m_Model.Nodes n1 = some node1 → at? r.m_Model.Nodes n2 = some node2 →
          rects[i]? = some (sf.Shape.RectangleShape
            ⟨Real.sqrt (((r.ToScreen node2.x node2.y).x - (r.ToScreen node1.x node1.y).x)
                * ((r.ToScreen node2.x node2.y).x - (r.ToScreen node1.x node1.y).x)
              + ((r.ToScreen node2.x node2.y).y - (r.ToScreen node1.x node1.y).y)
                * ((r.ToScreen node2.x node2.y).y - (r.ToScreen node1.x node1.y).y)),
              Render.GetRoadWidth road.type * r.m_PixelsInMeter⟩
            (r.ToScreen node1.x node1.y)
            (atan2 ((r.ToScreen node2.x node2.y).y - (r.ToScreen node1.x node1.y).y)
              ((r.ToScreen node2.x node2.y).x - (r.ToScreen node1.x node1.y).x))
            (Render.GetRoadColor road.type)) := by
  have hpos : 1 ≤ way.nodes.length := by
    cases hp : way.nodes with
    | nil => exact absurd hp hne
    | cons a rest => simp
  have hempty : way.nodes.isEmpty = false := by
    cases hp : way.nodes with
    | nil => exact absurd hp hne
    | cons a rest => rfl
  obtain ⟨out, hout, hlen, hout_get⟩ := forLoop_pairs (way.nodes.length - 1)
    (fun i => (way.nodes[i]?).bind (at? r.m_Model.Nodes))
    (fun node1 node2 => sf.Shape.RectangleShape
      ⟨Real.sqrt (((r.ToScreen node2.x node2.y).x - (r.ToScreen node1.x node1.y).x)
          * ((r.ToScreen node2.x node2.y).x - (r.ToScreen node1.x node1.y).x)
        + ((r.ToScreen node2.x node2.y).y - (r.ToScreen node1.x node1.y).y)
          * ((r.ToScreen node2.x node2.y).y - (r.ToScreen node1.x node1.y).y)),
        if Render.GetRoadWidth road.type > 0.0
          then Render.GetRoadWidth road.type * r.m_PixelsInMeter else 1.0⟩
      (r.ToScreen node1.x node1.y)
      (atan2 ((r.ToScreen node2.x node2.y).y - (r.ToScreen node1.x node1.y).y)
        ((r.ToScreen node2.x node2.y).x - (r.ToScreen node1.x node1.y).x))
      (Render.GetRoadColor road.type))
    (by
      intro i hi
      have h1 : i < way.nodes.length := by omega
      simp only [List.getElem?_eq_getElem h1, Option.some_bind]
      exact hnodes _ (List.getElem_mem h1))
    w
  refine ⟨out, ?_, hlen, ?_⟩
  · unfold Render.DrawRoads_road
    simp only [hfoot, if_false, hway, hempty, Bool.false_eq_true, Option.bind_eq_bind,
      Option.some_bind]
    rw [size_t_sub_one _ hpos hsz]
    exact hout
  · intro i n1 n2 node1 node2 h1 h2 h3 h4
    have hi : i < way.nodes.length - 1 := by
      have := (List.getElem?_eq_some_iff.mp h2).1
      omega
    have := hout_get i node1 node2 hi (by simp [h1, h3]) (by simp [h2, h4])
    rw [DrawRoads_width] at this
    exact this

theorem roadWellFormed_way (r : Render) (road : Model.Road)
    (hwf : roadWellFormed r road = true) (hfoot : road.type ≠ Model.RoadType.Footway) :
    ∃ way, at? r.m_Model.Ways road.way = some way ∧ way.nodes.length < 2 ^ 64
      ∧ ∀ n, n ∈ way.nodes → (at? r.m_Model.Nodes n).isSome = true := by
  unfold roadWellFormed at hwf
  cases hw : at? r.m_Model.Ways road.way with
  | none => simp [hw, hfoot] at hwf
  | some way =>
    simp only [hw, Bool.or_eq_true, beq_iff_eq, hfoot, false_or, Bool.and_eq_true,
      decide_eq_true_eq, List.all_eq_true] at hwf
    exact ⟨way, rfl, hwf.1, hwf.2⟩

/-- One well-formed road: the body of `DrawRoads` runs to its end and appends
`roadSegmentCount` rectangles. -/
theorem DrawRoads_road_count (r : Render) (road : Model.Road) (w : List sf.Shape)
    (hwf : roadWellFormed r road = true) :
    ∃ rects, r.DrawRoads_road road w = some (w ++ rects)
      ∧ rects.length = roadSegmentCount r road := by
  by_cases hfoot : road.type = Model.RoadType.Footway
  · exact ⟨[], by simp [DrawRoads_road_footway r road w hfoot],
      by simp [roadSegmentCount, hfoot]⟩
  · obtain ⟨way, hway, hsz, hnodes⟩ := roadWellFormed_way r road hwf hfoot
    by_cases hne : way.nodes = []
    · exact ⟨[], by simp [DrawRoads_road_empty r road way w hway hne],
        by simp [roadSegmentCount, hfoot, hway, hne]⟩
    · obtain ⟨rects, hdraw, hlen, _⟩ :=
        DrawRoads_road_emits r road way w hfoot hway hne hsz hnodes
      exact ⟨rects, hdraw, by simp [roadSegmentCount, hfoot, hway, hlen]⟩

/-- The loop over the roads: the rectangles of the roads are appended road
after road. -/
theorem DrawRoads_loop (r : Render) (roads : List Model.Road)
    (hwf : ∀ road, road ∈ roads → roadWellFormed r road = true) (w : List sf.Shape) :
    ∃ rects,
      roads.foldlM (fun window road => r.DrawRoads_road road window) w = some (w ++ rects)
      ∧ rects.length = (roads.map (roadSegmentCount r)).sum := by
  induction roads generalizing w with
  | nil => exact ⟨[], by simp, by simp⟩
  | cons road rest ih =>
    obtain ⟨rects1, h1, hlen1⟩ := DrawRoads_road_count r road w (hwf road (by simp))
    obtain ⟨rects2, h2, hlen2⟩ := ih (fun road hroad => hwf road (by simp [hroad])) (w ++ rects1)
    refine ⟨rects1 ++ rects2, ?_, by simp [hlen1, hlen2]⟩
    simp only [List.foldlM_cons, h1, Option.bind_eq_bind, Option.some_bind, h2,
      List.append_assoc]

/-- C10: `DrawRoads` draws nothing for a footway and nothing for a road whose
way is empty; for any other road with a way of `k ≥ 1` nodes it appends
exactly `k - 1` rectangles, one per pair of consecutive way nodes (none when
`k = 1`), each `GetRoadWidth(type) * m_PixelsInMeter` wide; the loop bound
`way.nodes.size() - 1` is `k - 1` without wrapping and the positions `i`,
`i + 1` read lie below `k`.  Over all roads the rectangles add up road after
road.  `GetRoadWidth` is positive on every road type, so the width is never
the fallback `1.0`. -/
theorem C10_DrawRoads_segments (r : Render) (w : List sf.Shape)
    (hwf : ∀ road, road ∈ r.m_Model.Roads → roadWellFormed r road = true) :
    (∀ road, road ∈ r.m_Model.Roads → road.type = Model.RoadType.Footway →
      ∀ w0, r.DrawRoads_road road w0 = some w0)
    ∧ (∀ road way, road ∈ r.m_Model.Roads → at? r.m_Model.Ways road.way = some way →
      way.nodes = [] → ∀ w0, r.DrawRoads_road road w0 = some w0)
    ∧ (∀ road way, road ∈ r.m_Model.Roads → road.type ≠ Model.RoadType.Footway →
      at? r.m_Model.Ways road.way = some way → way.nodes ≠ [] → ∀ w0,
        size_t_sub way.nodes.length 1 = way.nodes.length - 1
        ∧ (∀ i, i < size_t_sub way.nodes.length 1 →
            i < way.nodes.length ∧ i + 1 < way.nodes.length)
        ∧ (way.nodes.length = 1 → r.DrawRoads_road road w0 = some w0)
        ∧ ∃ rects, r.DrawRoads_road road w0 = some (w0 ++ rects)
          ∧ rects.length = way.nodes.length - 1
          ∧ ∀ i n1 n2 node1 node2, way.nodes[i]? = some n1 → way.nodes[i + 1]? = some n2 →
              at? r.m_Model.Nodes n1 = some node1 → at? r.m_Model.Nodes n2 = some node2 →
              rects[i]? = some (sf.Shape.RectangleShape
                ⟨Real.sqrt (((r.ToScreen node2.x node2.y).x - (r.ToScreen node1.x node1.y).x)
                    * ((r.ToScreen node2.x node2.y).x - (r.ToScreen node1.x node1.y).x)
                  + ((r.ToScreen node2.x node2.y).y - (r.ToScreen node1.x node1.y).y)
                    * ((r.ToScreen node2.x node2.y).y - (r.ToScreen node1.x node1.y).y)),
                  Render.GetRoadWidth road.type * r.m_PixelsInMeter⟩
                (r.ToScreen node1.x node1.y)
                (atan2 ((r.ToScreen node2.x node2.y).y - (r.ToScreen node1.x node1.y).y)
                  ((r.ToScreen node2.x node2.y).x - (r.ToScreen node1.x node1.y).x))
                (Render.GetRoadColor road.type)))
    ∧ (∃ rects, r.DrawRoads w = some (w ++ rects)
        ∧ rects.length = (r.m_Model.Roads.map (roadSegmentCount r)).sum)
    ∧ (∀ type, 0 < Render.GetRoadWidth type
        ∧ (if Render.GetRoadWidth type > 0.0
            then Render.GetRoadWidth type * r.m_PixelsInMeter else 1.0)
          = Render.GetRoadWidth type * r.m_PixelsInMeter) := by
  refine ⟨?_, ?_, ?_, ?_, ?_⟩
  · intro road _ hfoot w0
    exact DrawRoads_road_footway r road w0 hfoot
  · intro road way _ hway hempty w0
    exact DrawRoads_road_empty r road way w0 hway hempty
  · intro road way hroad hfoot hway hne w0
    obtain ⟨way0, hway0, hsz, hnodes⟩ := roadWellFormed_way r road (hwf road hroad) hfoot
    have hsame : way0 = way := by
      rw [hway] at hway0
      exact (Option.some.inj hway0).symm
    subst hsame
    have hpos : 1 ≤ way0.nodes.length := by
      cases hp : way0.nodes with
      | nil => exact absurd hp hne
      | cons a rest => simp
    have hbound := size_t_sub_one _ hpos hsz
    obtain ⟨rects, hdraw, hlen, hget⟩ :=
      DrawRoads_road_emits r road way0 w0 hfoot hway hne hsz hnodes
    refine ⟨hbound, ?_, ?_, rects, hdraw, hlen, hget⟩
    · intro i hi
      rw [hbound] at hi
      omega
    · intro h1
      have : rects = [] := List.length_eq_zero.mp (by omega)
      rw [hdraw, this, List.append_nil]
  · exact DrawRoads_loop r r.m_Model.Roads hwf w
  · intro type
    exact ⟨GetRoadWidth_pos type, DrawRoads_width r.m_PixelsInMeter type⟩

theorem sample_roadsWellFormed (path : List RouteModel.Node) :
    ∀ road, road ∈ (Render.Render (sampleRouteModel path)).m_Model.Roads →
      roadWellFormed (Render.Render (sampleRouteModel path)) road = true := by
  intro road hroad
  simp only [Render.Render, sampleRouteModel, sampleModel, List.mem_cons, List.mem_singleton,
    List.not_mem_nil, or_false] at hroad
  rcases hroad with h | h | h | h <;> subst h <;> rfl

/-- The four roads of the sample map are drawn as two rectangles: two for the
residential road, none for the footway, the empty way and the one-node way. -/
theorem C10_DrawRoads_witness :
    (∀ road, road ∈ (Render.Render (sampleRouteModel [])).m_Model.Roads →
      roadWellFormed (Render.Render (sampleRouteModel [])) road = true)
    ∧ ∃ rects, (Render.Render (sampleRouteModel [])).DrawRoads [] = some ([] ++ rects)
        ∧ rects.length = 2 := by
  obtain ⟨_, _, _, ⟨rects, hdraw, hlen⟩, _⟩ :=
    C10_DrawRoads_segments (Render.Render (sampleRouteModel [])) []
      (sample_roadsWellFormed [])
  refine ⟨sample_roadsWellFormed [], rects, hdraw, ?_⟩
  rw [hlen]
  decide
